import Mathlib

/-!
# Verification of the amethyst-imgui render pass (`src/pass.rs`)

Shallow embedding of the frame translation and batching engine of
`src/pass.rs`: the vertex/index assembler run by `DrawImgui::prepare`, the
draw-command replay of `DrawImgui::draw_inline`, the push-constant block
`ImguiPushConstant`, and the pipeline construction `build_imgui_pipeline`.

Modelling conventions:
* `f32` values are modelled as `ℚ` (exact rational arithmetic; the engine
  performs no operation on them whose result depends on rounding).
* Rust machine integers are modelled as `Nat`/`Int` with explicit
  reductions where the source truncates (`as u32` is `% 2^32`,
  `as i16` is a saturating truncation, `u32 as i32` reinterprets the bits).
* The GPU encoder is modelled as a trace of events; `draw_inline` returns
  the list of encoder calls it issues, in order.
* External collaborators that the claims do not touch (winit event
  plumbing, the imgui context juggling, `TextureSub::insert`/`maintain`
  bookkeeping, the actual GPU upload in `DynamicVertexBuffer::write`) are
  represented only by the data that flows through them.
-/

namespace AmethystImgui

/-- Rust `usize as u32`: reduction modulo `2^32` (`pass.rs` casts
`vertices.len() as u32`, `indices.len() as u32`, `texture_id as u32`). -/
def u32 (n : Nat) : Nat := n % 4294967296

/-- Rust `u32 as i32`: bit reinterpretation of a 32-bit value
(used for `draw.vertex_range.start as i32` in `draw_inline`). -/
def u32ToI32 (n : Nat) : Int :=
  if n % 4294967296 < 2147483648 then (n % 4294967296 : Int)
  else (n % 4294967296 : Int) - 4294967296

/-- Truncation of a rational toward zero (the rounding Rust float-to-int
`as` casts perform before saturating). -/
def truncTowardZero (q : ℚ) : Int := if 0 ≤ q then ⌊q⌋ else ⌈q⌉

/-- Rust `f32 as i16`: truncate toward zero, saturating to the `i16`
range (used for the scissor-rectangle fields in `prepare`). -/
def f32ToI16 (q : ℚ) : Int := max (-32768) (min 32767 (truncTowardZero q))

/-- `mem::transmute::<u32, TextureId>(texture_id as u32)` in `prepare`:
the toolkit's `usize` handle is truncated to 32 bits, then reinterpreted
bit-identically as the (32-bit) engine `TextureId`. -/
def toTextureId (handle : Nat) : Nat := u32 handle

/-- The assembled vertex format `ImguiArgs` of `pass.rs`
(`position`, `tex_coord`, packed 32-bit `color`).  The element-wise
`(*v).into()` conversion from the toolkit's vertex type is a field-for-field
copy, so draw-list vertices are carried in this format directly. -/
structure ImguiArgs where
  position : ℚ × ℚ
  tex_coord : ℚ × ℚ
  color : Nat
deriving DecidableEq

/-- The `clip_rect : [f32; 4]` of an imgui `DrawCmdParams`:
`(x, y)` is the upper-left corner, `(z, w)` the lower-right. -/
structure ClipRect where
  x : ℚ
  y : ℚ
  z : ℚ
  w : ℚ
deriving DecidableEq

/-- The fields of imgui's `DrawCmdParams` that `prepare` reads:
the clip rectangle and the toolkit's numeric texture handle (a `usize`). -/
structure DrawCmdParams where
  clip_rect : ClipRect
  texture_id : Nat
deriving DecidableEq

/-- imgui's `DrawCmd`: an indexed draw, a reset-render-state marker, or a
raw callback.  The callback function pointer and its raw data are opaque
to the engine; they are modelled as numeric tokens. -/
inductive DrawCmd where
  | Elements (count : Nat) (cmd_params : DrawCmdParams)
  | ResetRenderState
  | RawCallback (callback : Nat) (raw_cmd : Nat)
deriving DecidableEq

/-- One imgui draw list: a vertex buffer, an index buffer (`u16` indices),
and a command buffer. -/
structure DrawList where
  vtx_buffer : List ImguiArgs
  idx_buffer : List Nat
  cmd_buffer : List DrawCmd
deriving DecidableEq

/-- `hal::pso::Rect` (`i16` fields). -/
structure Rect where
  x : Int
  y : Int
  w : Int
  h : Int
deriving DecidableEq

/-- `std::ops::Range<u32>`.  The Rust field `end` is a Lean keyword and is
rendered `stop`. -/
structure Range32 where
  start : Nat
  stop : Nat
deriving DecidableEq

/-- The `DrawCmdOps` record of `pass.rs`: the per-command output of the
assembler. -/
structure DrawCmdOps where
  vertex_range : Range32
  index_range : Range32
  scissor : Rect
  texture_id : Nat
deriving DecidableEq

/-- `nalgebra::Vector4<f32>`. -/
structure Vector4 where
  x : ℚ
  y : ℚ
  z : ℚ
  w : ℚ
deriving DecidableEq

/-- `nalgebra::Vector2<f32>`. -/
structure Vector2 where
  x : ℚ
  y : ℚ
deriving DecidableEq

/-- The push-constant block `ImguiPushConstant` of `pass.rs`:
a single `Vector4<f32>` holding `(scale_x, scale_y, trans_x, trans_y)`. -/
structure ImguiPushConstant where
  inner : Vector4
deriving DecidableEq

/-- `ImguiPushConstant::new`. -/
def ImguiPushConstant.new (scale_x scale_y trans_x trans_y : ℚ) : ImguiPushConstant :=
  ⟨⟨scale_x, scale_y, trans_x, trans_y⟩⟩

/-- `ImguiPushConstant::raw`: the four floats in memory order. -/
def ImguiPushConstant.raw (c : ImguiPushConstant) : List ℚ :=
  [c.inner.x, c.inner.y, c.inner.z, c.inner.w]

/-- `ImguiPushConstant::scale`. -/
def ImguiPushConstant.scale (c : ImguiPushConstant) : Vector2 :=
  ⟨c.inner.x, c.inner.y⟩

/-- `ImguiPushConstant::translation`. -/
def ImguiPushConstant.translation (c : ImguiPushConstant) : Vector2 :=
  ⟨c.inner.z, c.inner.w⟩

/-- `ImguiPushConstant::set_scale` (functional rendering of `&mut self`). -/
def ImguiPushConstant.set_scale (c : ImguiPushConstant) (scale : Vector2) : ImguiPushConstant :=
  ⟨⟨scale.x, scale.y, c.inner.z, c.inner.w⟩⟩

/-- `ImguiPushConstant::set_translation` (functional rendering of `&mut self`). -/
def ImguiPushConstant.set_translation (c : ImguiPushConstant) (t : Vector2) : ImguiPushConstant :=
  ⟨⟨c.inner.x, c.inner.y, t.x, t.y⟩⟩

/-- `impl Default for ImguiPushConstant`: `Vector4::new(1.0, 1.0, 0.0, 0.0)`. -/
def ImguiPushConstant.default : ImguiPushConstant := ⟨⟨1, 1, 0, 0⟩⟩

/-- Conversion of an imgui `clip_rect` to the `hal::pso::Rect` scissor in
`prepare`: `x = clip.x as i16`, `y = clip.y as i16`,
`w = (clip.z - clip.x) as i16`, `h = (clip.w - clip.y) as i16`. -/
def scissorOf (c : ClipRect) : Rect :=
  ⟨f32ToI16 c.x, f32ToI16 c.y, f32ToI16 (c.z - c.x), f32ToI16 (c.w - c.y)⟩

/-- The mutable data threaded through the assembly loop of `prepare`:
the local `vertices` and `indices` vectors, `self.commands`, and the trace
of raw-callback invocations (`callback(draw_list.raw(), raw_cmd)`). -/
structure AsmAcc where
  vertices : List ImguiArgs
  indices : List Nat
  commands : List DrawCmdOps
  callbacks : List (Nat × Nat)
deriving DecidableEq

/-- One iteration of the inner `for draw_cmd in draw_list.cmd_buffer` loop
of `prepare`.  An `Elements` command pushes a `DrawCmdOps` whose ranges run
from the current flat-buffer lengths to those lengths plus the *whole*
source list's buffer lengths; `ResetRenderState` is a no-op (`// TODO`);
`RawCallback` invokes the callback and produces no command. -/
def processDrawCmd (dl : DrawList) (acc : AsmAcc) (cmd : DrawCmd) : AsmAcc :=
  match cmd with
  | DrawCmd.Elements _ p =>
    { acc with
      commands := acc.commands ++
        [{ vertex_range :=
             ⟨u32 acc.vertices.length, u32 (acc.vertices.length + dl.vtx_buffer.length)⟩,
           index_range :=
             ⟨u32 acc.indices.length, u32 (acc.indices.length + dl.idx_buffer.length)⟩,
           scissor := scissorOf p.clip_rect,
           texture_id := toTextureId p.texture_id }] }
  | DrawCmd.ResetRenderState => acc
  | DrawCmd.RawCallback cb raw => { acc with callbacks := acc.callbacks ++ [(cb, raw)] }

/-- One iteration of the outer `for draw_list in &draw_data` loop of
`prepare`: first rewrite all of the list's commands (against the current
flat-buffer lengths), then append the list's vertices and indices. -/
def processDrawList (acc : AsmAcc) (dl : DrawList) : AsmAcc :=
  let acc := dl.cmd_buffer.foldl (processDrawCmd dl) acc
  { acc with
    vertices := acc.vertices ++ dl.vtx_buffer,
    indices := acc.indices ++ dl.idx_buffer }

/-- The whole assembly loop of `prepare` over the frame's draw data.
`initCommands` is the content of `self.commands` on entry (`prepare` only
pushes; the vector is cleared at the end of `draw_inline`).  The local
`vertices`/`indices` vectors start empty each frame. -/
def assembleData (initCommands : List DrawCmdOps) (draw_data : List DrawList) : AsmAcc :=
  draw_data.foldl processDrawList ⟨[], [], initCommands, []⟩

/-- `rendy`'s `PrepareResult` as used by `pass.rs`. -/
inductive PrepareResult where
  | DrawRecord
  | DrawReuse
deriving DecidableEq

/-- What `prepare` reads from the current imgui `Ui`, when one exists:
the display size (for the transform constant) and the frame's draw data. -/
structure UiFrame where
  display_size : ℚ × ℚ
  draw_data : List DrawList

/-- The `DrawImgui` state touched by the claims: the persisted command
list, the push constant, and the texture-residency predicate
(`self.textures.loaded`). -/
structure DrawImgui where
  commands : List DrawCmdOps
  constant : ImguiPushConstant
  loaded : Nat → Bool

/-- Everything observable from one `prepare` call: the new state, the
returned `PrepareResult`, the data handed to
`DynamicVertexBuffer::write`/`DynamicIndexBuffer::write`, and the
raw-callback invocations. -/
structure PrepareOutput where
  state : DrawImgui
  result : PrepareResult
  uploadedVertices : List ImguiArgs
  uploadedIndices : List Nat
  callbacks : List (Nat × Nat)

/-- `DrawImgui::prepare`.  When no current `Ui` exists the whole
`if let Some(ui)` block (constant update, assembly, upload) is skipped.
Either way the function ends with `PrepareResult::DrawRecord`. -/
def prepare (st : DrawImgui) (ui : Option UiFrame) : PrepareOutput :=
  match ui with
  | none => ⟨st, PrepareResult.DrawRecord, [], [], []⟩
  | some u =>
    let c := st.constant.set_scale ⟨2 / u.display_size.1, 2 / u.display_size.2⟩
    let c := c.set_translation ⟨-1, -1⟩
    let acc := assembleData st.commands u.draw_data
    ⟨{ st with commands := acc.commands, constant := c },
      PrepareResult.DrawRecord, acc.vertices, acc.indices, acc.callbacks⟩

/-- One call recorded against the `RenderPassEncoder` in `draw_inline`. -/
inductive DrawEvent where
  | bindPipeline
  | bindVertexBuffer (index : Nat)
  | bindIndexBuffer (index : Nat)
  | bindTexture (texture_id : Nat)
  | setScissors (rect : Rect)
  | pushConstants (data : List ℚ)
  | drawIndexed (indices : Range32) (base_vertex : Int) (instances : Range32)
deriving DecidableEq

/-- The encoder calls issued by one iteration of the `for draw in
&self.commands` loop of `draw_inline`: pipeline bind, vertex/index buffer
binds, the texture bind only if `self.textures.loaded(draw.texture_id)`,
scissor, push constants, and the indexed draw over `draw.index_range` with
base vertex `draw.vertex_range.start as i32` and instance range `0..1`. -/
def cmdEvents (st : DrawImgui) (index : Nat) (draw : DrawCmdOps) : List DrawEvent :=
  [DrawEvent.bindPipeline, DrawEvent.bindVertexBuffer index, DrawEvent.bindIndexBuffer index]
  ++ (if st.loaded draw.texture_id then [DrawEvent.bindTexture draw.texture_id] else [])
  ++ [DrawEvent.setScissors draw.scissor,
      DrawEvent.pushConstants st.constant.raw,
      DrawEvent.drawIndexed draw.index_range (u32ToI32 draw.vertex_range.start) ⟨0, 1⟩]

/-- `DrawImgui::draw_inline`: replay the command list in order, then
`self.commands.clear()`.  Returns the encoder trace and the new state. -/
def draw_inline (st : DrawImgui) (index : Nat) : List DrawEvent × DrawImgui :=
  (st.commands.foldl (fun evs draw => evs ++ cmdEvents st index draw) [],
   { st with commands := [] })

/-- GPU-object lifecycle calls made by `build_imgui_pipeline` that matter
for cleanup: shader-module destruction (always) and pipeline-layout
destruction (on the error path). -/
inductive PipeEvent where
  | destroyShaderModules
  | destroyPipelineLayout (layout : Nat)
deriving DecidableEq

/-- The outcomes the factory would produce for the two fallible creation
calls of `build_imgui_pipeline`: `create_pipeline_layout` and
`PipelinesBuilder::build`.  GPU objects are identified by numeric tokens. -/
structure Factory where
  layoutResult : Except String Nat
  pipesResult : Except String Nat

/-- The result of `build_imgui_pipeline` plus the trace of destruction
calls it performed before returning. -/
structure BuildResult where
  result : Except String (Nat × Nat)
  events : List PipeEvent

/-- `build_imgui_pipeline`: create the pipeline layout (`?` propagates a
failure immediately, with nothing created yet), build the pipeline,
destroy the temporary shader modules, and on pipeline-build failure
destroy the just-created pipeline layout before returning the error.  On
success it returns `(pipes.remove(0), pipeline_layout)`. -/
def build_imgui_pipeline (f : Factory) : BuildResult :=
  match f.layoutResult with
  | Except.error e => ⟨Except.error e, []⟩
  | Except.ok pipeline_layout =>
    match f.pipesResult with
    | Except.error e =>
      ⟨Except.error e,
        [PipeEvent.destroyShaderModules, PipeEvent.destroyPipelineLayout pipeline_layout]⟩
    | Except.ok pipe =>
      ⟨Except.ok (pipe, pipeline_layout), [PipeEvent.destroyShaderModules]⟩

/-! ## Reference functions used to state the claims -/

/-- The parameters of an `Elements` command, `none` for the other kinds. -/
def elemParams : DrawCmd → Option DrawCmdParams
  | DrawCmd.Elements _ p => some p
  | _ => none

/-- The payload of a `RawCallback` command, `none` for the other kinds. -/
def callbackOf : DrawCmd → Option (Nat × Nat)
  | DrawCmd.RawCallback cb raw => some (cb, raw)
  | _ => none

/-- The `DrawCmdOps` that `prepare` pushes for an `Elements` command of
list `dl` when the flat buffers hold `vlen` vertices and `ilen` indices. -/
def elemToOps (dl : DrawList) (vlen ilen : Nat) (p : DrawCmdParams) : DrawCmdOps :=
  { vertex_range := ⟨u32 vlen, u32 (vlen + dl.vtx_buffer.length)⟩,
    index_range := ⟨u32 ilen, u32 (ilen + dl.idx_buffer.length)⟩,
    scissor := scissorOf p.clip_rect,
    texture_id := toTextureId p.texture_id }

/-- Total vertex count of a sequence of draw lists. -/
def totalVtx (dd : List DrawList) : Nat := (dd.map (fun l => l.vtx_buffer.length)).sum

/-- Total index count of a sequence of draw lists. -/
def totalIdx (dd : List DrawList) : Nat := (dd.map (fun l => l.idx_buffer.length)).sum

/-- The commands the assembler produces for `dd`, starting from flat-buffer
offsets `voff`/`ioff` (reference recursion, to be proved equal to the
`foldl` the code performs). -/
def cmdsFrom : Nat → Nat → List DrawList → List DrawCmdOps
  | _, _, [] => []
  | voff, ioff, dl :: rest =>
    (dl.cmd_buffer.filterMap elemParams).map (elemToOps dl voff ioff)
      ++ cmdsFrom (voff + dl.vtx_buffer.length) (ioff + dl.idx_buffer.length) rest

/-- The `Elements` parameters across all lists, in their given order, with
reset-render-state and raw-callback entries removed. -/
def elemsOf : List DrawList → List DrawCmdParams
  | [] => []
  | dl :: rest => dl.cmd_buffer.filterMap elemParams ++ elemsOf rest

/-- The raw-callback invocations across all lists, in order. -/
def cbsOf : List DrawList → List (Nat × Nat)
  | [] => []
  | dl :: rest => dl.cmd_buffer.filterMap callbackOf ++ cbsOf rest

/-- Concatenation of all the lists' vertex buffers. -/
def flatVtx : List DrawList → List ImguiArgs
  | [] => []
  | dl :: rest => dl.vtx_buffer ++ flatVtx rest

/-- Concatenation of all the lists' index buffers. -/
def flatIdx : List DrawList → List Nat
  | [] => []
  | dl :: rest => dl.idx_buffer ++ flatIdx rest

/-- `isChain lo rs hi` holds when the ranges `rs`, in order, exactly cover
`[lo, hi)` with no overlap and no gap: each range starts where the
previous one stopped.  This is the partition property of the claim. -/
def isChain : Nat → List Range32 → Nat → Bool
  | lo, [], hi => lo == hi
  | lo, r :: rs, hi => (r.start == lo) && isChain r.stop rs hi

/-- Number of `bind_graphics_pipeline` calls in an encoder trace. -/
def countBindPipeline : List DrawEvent → Nat
  | [] => 0
  | DrawEvent.bindPipeline :: rest => countBindPipeline rest + 1
  | _ :: rest => countBindPipeline rest

/-- The indexed-draw calls of an encoder trace, in order. -/
def drawCalls : List DrawEvent → List (Range32 × Int × Range32)
  | [] => []
  | DrawEvent.drawIndexed r b i :: rest => (r, b, i) :: drawCalls rest
  | _ :: rest => drawCalls rest

/-! ## Concrete frames used as test inputs -/

/-- A dummy vertex for the concrete test inputs. -/
def vtxW : ImguiArgs := ⟨(0, 0), (0, 0), 0⟩

/-- Concrete command parameters for the test inputs. -/
def paramsW : DrawCmdParams := ⟨⟨0, 0, 100, 50⟩, 1⟩

/-- A draw list with 4 vertices, 6 indices, and two indexed-draw commands
of 3 indices each. -/
def dlTwoCmds : DrawList :=
  ⟨[vtxW, vtxW, vtxW, vtxW], [0, 1, 2, 0, 2, 3],
   [DrawCmd.Elements 3 paramsW, DrawCmd.Elements 3 paramsW]⟩

/-- A prepared command whose texture (id 3) is resident in `stMixed`. -/
def cmdReady : DrawCmdOps := ⟨⟨0, 4⟩, ⟨0, 6⟩, ⟨0, 0, 100, 50⟩, 3⟩

/-- A prepared command whose texture (id 5) is not resident in `stMixed`. -/
def cmdNotReady : DrawCmdOps := ⟨⟨4, 8⟩, ⟨6, 12⟩, ⟨10, 10, 20, 20⟩, 5⟩

/-- A prepared frame with one ready and one not-ready command. -/
def stMixed : DrawImgui :=
  ⟨[cmdReady, cmdNotReady], ImguiPushConstant.default, fun t => t == 3⟩

/-- A state with no prepared commands and no resident textures. -/
def stEmpty : DrawImgui := ⟨[], ImguiPushConstant.default, fun _ => false⟩

/-- A UI frame with display size 800 × 600 and no draw lists. -/
def uiW : UiFrame := ⟨(800, 600), []⟩

/-- A factory whose pipeline-layout creation succeeds (object token 1)
and whose pipeline build fails. -/
def factoryFail : Factory := ⟨Except.ok 1, Except.error "pipeline build failed"⟩

/-! ## Characterization of the assembly loop -/

theorem processCmds_spec (dl : DrawList) (cmds : List DrawCmd) :
    ∀ acc : AsmAcc,
      cmds.foldl (processDrawCmd dl) acc =
        { acc with
          commands := acc.commands ++
            (cmds.filterMap elemParams).map (elemToOps dl acc.vertices.length acc.indices.length),
          callbacks := acc.callbacks ++ cmds.filterMap callbackOf } := by
  induction cmds with
  | nil => intro acc; simp
  | cons c rest ih =>
    intro acc
    cases c with
    | Elements n p =>
      simp only [List.foldl_cons, processDrawCmd]
      rw [ih]
      simp [elemToOps, elemParams, callbackOf, List.filterMap_cons]
    | ResetRenderState =>
      simp only [List.foldl_cons, processDrawCmd]
      rw [ih]
      simp [elemParams, callbackOf, List.filterMap_cons]
    | RawCallback cb raw =>
      simp only [List.foldl_cons, processDrawCmd]
      rw [ih]
      simp [elemParams, callbackOf, List.filterMap_cons]

theorem processLists_spec (dd : List DrawList) :
    ∀ acc : AsmAcc,
      dd.foldl processDrawList acc =
        { vertices := acc.vertices ++ flatVtx dd,
          indices := acc.indices ++ flatIdx dd,
          commands := acc.commands ++ cmdsFrom acc.vertices.length acc.indices.length dd,
          callbacks := acc.callbacks ++ cbsOf dd } := by
  induction dd with
  | nil => intro acc; simp [flatVtx, flatIdx, cmdsFrom, cbsOf]
  | cons dl rest ih =>
    intro acc
    simp only [List.foldl_cons, processDrawList]
    rw [processCmds_spec]
    rw [ih]
    simp [flatVtx, flatIdx, cmdsFrom, cbsOf, List.append_assoc, List.length_append]

/-- The assembly loop of `prepare`, solved: flat buffers are the
concatenations, commands are appended to the incoming command list with
offsets computed from the running totals, callbacks run in order. -/
theorem assembleData_eq (init : List DrawCmdOps) (dd : List DrawList) :
    assembleData init dd = ⟨flatVtx dd, flatIdx dd, init ++ cmdsFrom 0 0 dd, cbsOf dd⟩ := by
  unfold assembleData
  rw [processLists_spec]
  simp

theorem flatVtx_length (dd : List DrawList) : (flatVtx dd).length = totalVtx dd := by
  induction dd with
  | nil => simp [flatVtx, totalVtx]
  | cons dl rest ih => simp [flatVtx, totalVtx] at ih ⊢; omega

theorem flatIdx_length (dd : List DrawList) : (flatIdx dd).length = totalIdx dd := by
  induction dd with
  | nil => simp [flatIdx, totalIdx]
  | cons dl rest ih => simp [flatIdx, totalIdx] at ih ⊢; omega

theorem u32_eq_of_lt {n : Nat} (h : n < 4294967296) : u32 n = n := Nat.mod_eq_of_lt h

theorem sum_take_get_le {α : Type} (f : α → Nat) :
    ∀ (l : List α) (k : Nat) (hk : k < l.length),
      ((l.take k).map f).sum + f (l.get ⟨k, hk⟩) ≤ (l.map f).sum := by
  intro l
  induction l with
  | nil => intro k hk; simp at hk
  | cons a rest ih =>
    intro k hk
    cases k with
    | zero => simp
    | succ k =>
      have hk' : k < rest.length := by simpa using hk
      have h2 := ih k hk'
      have e : (a :: rest).get ⟨k + 1, hk⟩ = rest.get ⟨k, hk'⟩ := rfl
      rw [List.take_succ_cons, List.map_cons, List.sum_cons, e, List.map_cons, List.sum_cons]
      omega

/-- Every command `cmdsFrom` emits for some list spans that entire list's
contribution: its ranges run from the flat-buffer offset at which the
list's buffers begin to that offset plus the list's full buffer length. -/
theorem cmdsFrom_span :
    ∀ (dd : List DrawList) (voff ioff : Nat), ∀ c ∈ cmdsFrom voff ioff dd,
      ∃ k, ∃ hk : k < dd.length,
        c.vertex_range = ⟨u32 (voff + totalVtx (dd.take k)),
          u32 (voff + totalVtx (dd.take k) + (dd.get ⟨k, hk⟩).vtx_buffer.length)⟩ ∧
        c.index_range = ⟨u32 (ioff + totalIdx (dd.take k)),
          u32 (ioff + totalIdx (dd.take k) + (dd.get ⟨k, hk⟩).idx_buffer.length)⟩ := by
  intro dd
  induction dd with
  | nil => intro voff ioff c hc; simp [cmdsFrom] at hc
  | cons dl rest ih =>
    intro voff ioff c hc
    simp only [cmdsFrom, List.mem_append] at hc
    rcases hc with hc | hc
    · rcases List.mem_map.mp hc with ⟨p, _, rfl⟩
      refine ⟨0, by simp, ?_, ?_⟩ <;> simp [elemToOps, totalVtx, totalIdx]
    · rcases ih (voff + dl.vtx_buffer.length) (ioff + dl.idx_buffer.length) c hc
        with ⟨k, hk, hv, hi⟩
      refine ⟨k + 1, by simpa using Nat.succ_lt_succ hk, ?_, ?_⟩
      · have e1 : voff + totalVtx ((dl :: rest).take (k + 1)) =
            voff + dl.vtx_buffer.length + totalVtx (rest.take k) := by
          simp [totalVtx, List.take_succ_cons]; omega
        have e2 : ((dl :: rest).get ⟨k + 1, by simpa using Nat.succ_lt_succ hk⟩) =
            rest.get ⟨k, hk⟩ := rfl
        rw [e1, e2]
        exact hv
      · have e1 : ioff + totalIdx ((dl :: rest).take (k + 1)) =
            ioff + dl.idx_buffer.length + totalIdx (rest.take k) := by
          simp [totalIdx, List.take_succ_cons]; omega
        have e2 : ((dl :: rest).get ⟨k + 1, by simpa using Nat.succ_lt_succ hk⟩) =
            rest.get ⟨k, hk⟩ := rfl
        rw [e1, e2]
        exact hi

/-! ## Characterization of the draw loop -/

theorem foldl_append_eq_flatMap {α β : Type} (f : α → List β) :
    ∀ (l : List α) (init : List β),
      l.foldl (fun evs d => evs ++ f d) init = init ++ l.flatMap f := by
  intro l
  induction l with
  | nil => intro init; simp
  | cons a rest ih =>
    intro init
    simp only [List.foldl_cons, List.flatMap_cons]
    rw [ih]
    simp [List.append_assoc]

theorem drawInline_trace (st : DrawImgui) (index : Nat) :
    (draw_inline st index).1 = st.commands.flatMap (cmdEvents st index) := by
  simp [draw_inline, foldl_append_eq_flatMap]

theorem drawInline_clears (st : DrawImgui) (index : Nat) :
    (draw_inline st index).2.commands = [] := rfl

theorem drawCalls_append (l₁ l₂ : List DrawEvent) :
    drawCalls (l₁ ++ l₂) = drawCalls l₁ ++ drawCalls l₂ := by
  induction l₁ with
  | nil => simp [drawCalls]
  | cons e rest ih => cases e <;> simp [drawCalls, ih]

theorem drawCalls_cmdEvents (st : DrawImgui) (index : Nat) (d : DrawCmdOps) :
    drawCalls (cmdEvents st index d) =
      [(d.index_range, u32ToI32 d.vertex_range.start, ⟨0, 1⟩)] := by
  cases h : st.loaded d.texture_id <;> simp [cmdEvents, h, drawCalls]

theorem drawCalls_flatMap (st : DrawImgui) (index : Nat) :
    ∀ l : List DrawCmdOps,
      drawCalls (l.flatMap (cmdEvents st index)) =
        l.map (fun d => (d.index_range, u32ToI32 d.vertex_range.start, Range32.mk 0 1)) := by
  intro l
  induction l with
  | nil => simp [drawCalls]
  | cons d rest ih =>
    simp only [List.flatMap_cons, List.map_cons]
    rw [drawCalls_append, drawCalls_cmdEvents, ih]
    rfl

theorem countBindPipeline_append (l₁ l₂ : List DrawEvent) :
    countBindPipeline (l₁ ++ l₂) = countBindPipeline l₁ + countBindPipeline l₂ := by
  induction l₁ with
  | nil => simp [countBindPipeline]
  | cons e rest ih =>
    cases e <;> simp [countBindPipeline, ih]
    omega

theorem countBindPipeline_cmdEvents (st : DrawImgui) (index : Nat) (d : DrawCmdOps) :
    countBindPipeline (cmdEvents st index d) = 1 := by
  cases h : st.loaded d.texture_id <;> simp [cmdEvents, h, countBindPipeline]

theorem countBindPipeline_flatMap (st : DrawImgui) (index : Nat) :
    ∀ l : List DrawCmdOps,
      countBindPipeline (l.flatMap (cmdEvents st index)) = l.length := by
  intro l
  induction l with
  | nil => simp [countBindPipeline]
  | cons d rest ih =>
    simp only [List.flatMap_cons, List.length_cons]
    rw [countBindPipeline_append, countBindPipeline_cmdEvents, ih]
    omega

theorem bindTexture_not_mem_cmdEvents (st : DrawImgui) (index : Nat) (d : DrawCmdOps)
    (tid : Nat) (h : st.loaded tid = false) :
    DrawEvent.bindTexture tid ∉ cmdEvents st index d := by
  intro hmem
  cases hl : st.loaded d.texture_id with
  | false => simp [cmdEvents, hl] at hmem
  | true =>
    simp [cmdEvents, hl] at hmem
    rw [hmem] at h
    rw [hl] at h
    exact Bool.noConfusion h

theorem setScissors_mem_cmdEvents (st : DrawImgui) (index : Nat) (d : DrawCmdOps) :
    DrawEvent.setScissors d.scissor ∈ cmdEvents st index d := by
  cases h : st.loaded d.texture_id <;> simp [cmdEvents, h]

theorem drawIndexed_mem_cmdEvents (st : DrawImgui) (index : Nat) (d : DrawCmdOps) :
    DrawEvent.drawIndexed d.index_range (u32ToI32 d.vertex_range.start) ⟨0, 1⟩ ∈
      cmdEvents st index d := by
  cases h : st.loaded d.texture_id <;> simp [cmdEvents, h]

theorem cmdsFrom_proj :
    ∀ (dd : List DrawList) (voff ioff : Nat),
      (cmdsFrom voff ioff dd).map (fun c => (c.scissor, c.texture_id)) =
        (elemsOf dd).map (fun p => (scissorOf p.clip_rect, toTextureId p.texture_id)) := by
  intro dd
  induction dd with
  | nil => intro voff ioff; simp [cmdsFrom, elemsOf]
  | cons dl rest ih =>
    intro voff ioff
    simp [cmdsFrom, elemsOf, List.map_append, List.map_map, ih, Function.comp, elemToOps]

/-! ## The claims -/

/-- C1 (counterexample): a single draw list with two `Elements` commands
and 6 indices yields two `DrawCmdOps` whose index ranges are both `[0, 6)`
— they do not partition the list's contribution (the second range would
have to start at 6), contradicting the claimed partition property. -/
theorem commandRanges_not_partition_counterexample :
    (assembleData [] [dlTwoCmds]).commands.map (fun c => c.index_range) = [⟨0, 6⟩, ⟨0, 6⟩] ∧
    (assembleData [] [dlTwoCmds]).indices.length = 6 ∧
    isChain 0 ((assembleData [] [dlTwoCmds]).commands.map (fun c => c.index_range))
      ((assembleData [] [dlTwoCmds]).indices.length) = false := by
  refine ⟨?_, ?_, ?_⟩ <;> decide

/-- C1 (amended): provided the totals fit in `u32`, every `DrawCmdOps`
produced by the assembler has `start ≤ stop` and `stop` within the
assembled buffer, and its ranges span the *entire* contribution of its
source draw list (rather than partitioning it command by command). -/
theorem commandRanges_valid_full_span (dd : List DrawList)
    (hv : totalVtx dd < 4294967296) (hi : totalIdx dd < 4294967296) :
    ∀ c ∈ (assembleData [] dd).commands,
      c.vertex_range.start ≤ c.vertex_range.stop ∧
      c.vertex_range.stop ≤ (assembleData [] dd).vertices.length ∧
      c.index_range.start ≤ c.index_range.stop ∧
      c.index_range.stop ≤ (assembleData [] dd).indices.length ∧
      ∃ k, ∃ hk : k < dd.length,
        c.vertex_range = ⟨totalVtx (dd.take k),
          totalVtx (dd.take k) + (dd.get ⟨k, hk⟩).vtx_buffer.length⟩ ∧
        c.index_range = ⟨totalIdx (dd.take k),
          totalIdx (dd.take k) + (dd.get ⟨k, hk⟩).idx_buffer.length⟩ := by
  intro c hc
  rw [assembleData_eq] at hc
  simp only [List.nil_append] at hc
  rcases cmdsFrom_span dd 0 0 c hc with ⟨k, hk, hv', hi'⟩
  have hbv : totalVtx (dd.take k) + (dd.get ⟨k, hk⟩).vtx_buffer.length ≤ totalVtx dd :=
    sum_take_get_le (fun l => l.vtx_buffer.length) dd k hk
  have hbi : totalIdx (dd.take k) + (dd.get ⟨k, hk⟩).idx_buffer.length ≤ totalIdx dd :=
    sum_take_get_le (fun l => l.idx_buffer.length) dd k hk
  have e1 : u32 (0 + totalVtx (dd.take k)) = totalVtx (dd.take k) := by
    rw [Nat.zero_add]; exact u32_eq_of_lt (by omega)
  have e2 : u32 (0 + totalVtx (dd.take k) + (dd.get ⟨k, hk⟩).vtx_buffer.length) =
      totalVtx (dd.take k) + (dd.get ⟨k, hk⟩).vtx_buffer.length := by
    rw [Nat.zero_add]; exact u32_eq_of_lt (by omega)
  have e3 : u32 (0 + totalIdx (dd.take k)) = totalIdx (dd.take k) := by
    rw [Nat.zero_add]; exact u32_eq_of_lt (by omega)
  have e4 : u32 (0 + totalIdx (dd.take k) + (dd.get ⟨k, hk⟩).idx_buffer.length) =
      totalIdx (dd.take k) + (dd.get ⟨k, hk⟩).idx_buffer.length := by
    rw [Nat.zero_add]; exact u32_eq_of_lt (by omega)
  rw [e1, e2] at hv'
  rw [e3, e4] at hi'
  have hvlen : (assembleData [] dd).vertices.length = totalVtx dd := by
    rw [assembleData_eq]; exact flatVtx_length dd
  have hilen : (assembleData [] dd).indices.length = totalIdx dd := by
    rw [assembleData_eq]; exact flatIdx_length dd
  refine ⟨?_, ?_, ?_, ?_, k, hk, hv', hi'⟩
  · rw [hv']; simp
  · rw [hv', hvlen]; simpa using hbv
  · rw [hi']; simp
  · rw [hi', hilen]; simpa using hbi

/-- C1 (witness): the amended statement evaluated on the two-command
list. -/
theorem commandRanges_valid_full_span_witness :
    totalVtx [dlTwoCmds] < 4294967296 ∧ totalIdx [dlTwoCmds] < 4294967296 ∧
    ∀ c ∈ (assembleData [] [dlTwoCmds]).commands,
      c.vertex_range.start ≤ c.vertex_range.stop ∧
      c.vertex_range.stop ≤ (assembleData [] [dlTwoCmds]).vertices.length ∧
      c.index_range.start ≤ c.index_range.stop ∧
      c.index_range.stop ≤ (assembleData [] [dlTwoCmds]).indices.length ∧
      ∃ k, ∃ hk : k < ([dlTwoCmds] : List DrawList).length,
        c.vertex_range = ⟨totalVtx (([dlTwoCmds] : List DrawList).take k),
          totalVtx (([dlTwoCmds] : List DrawList).take k) +
            (([dlTwoCmds] : List DrawList).get ⟨k, hk⟩).vtx_buffer.length⟩ ∧
        c.index_range = ⟨totalIdx (([dlTwoCmds] : List DrawList).take k),
          totalIdx (([dlTwoCmds] : List DrawList).take k) +
            (([dlTwoCmds] : List DrawList).get ⟨k, hk⟩).idx_buffer.length⟩ :=
  ⟨by decide, by decide,
    commandRanges_valid_full_span [dlTwoCmds] (by decide) (by decide)⟩

/-- C2 (counterexample): in a frame with a ready command (texture 3) and a
not-ready command (texture 5), the not-ready command is *not* omitted: its
scissor is still set and its indexed draw is still issued (two draw calls,
not one). -/
theorem notReady_command_still_drawn_counterexample :
    stMixed.loaded 5 = false ∧
    DrawEvent.setScissors ⟨10, 10, 20, 20⟩ ∈ (draw_inline stMixed 0).1 ∧
    drawCalls (draw_inline stMixed 0).1 =
      [(⟨0, 6⟩, 0, ⟨0, 1⟩), (⟨6, 12⟩, 4, ⟨0, 1⟩)] := by
  refine ⟨?_, ?_, ?_⟩ <;> decide

/-- C2 (amended): for a command whose texture is not ready, only the
texture-bind step is omitted; its scissor set and indexed draw are still
issued, and every command of the frame (ready or not) gets its indexed
draw, in order. -/
theorem notReady_skips_only_texture_bind (st : DrawImgui) (index : Nat) (c : DrawCmdOps)
    (hc : c ∈ st.commands) (h : st.loaded c.texture_id = false) :
    DrawEvent.bindTexture c.texture_id ∉ (draw_inline st index).1 ∧
    DrawEvent.setScissors c.scissor ∈ (draw_inline st index).1 ∧
    DrawEvent.drawIndexed c.index_range (u32ToI32 c.vertex_range.start) ⟨0, 1⟩ ∈
      (draw_inline st index).1 ∧
    drawCalls (draw_inline st index).1 =
      st.commands.map (fun d => (d.index_range, u32ToI32 d.vertex_range.start, Range32.mk 0 1)) := by
  refine ⟨?_, ?_, ?_, ?_⟩
  · rw [drawInline_trace]
    intro hmem
    rcases List.mem_flatMap.mp hmem with ⟨d, _, hd⟩
    exact bindTexture_not_mem_cmdEvents st index d c.texture_id h hd
  · rw [drawInline_trace]
    exact List.mem_flatMap.mpr ⟨c, hc, setScissors_mem_cmdEvents st index c⟩
  · rw [drawInline_trace]
    exact List.mem_flatMap.mpr ⟨c, hc, drawIndexed_mem_cmdEvents st index c⟩
  · rw [drawInline_trace]
    exact drawCalls_flatMap st index st.commands

/-- C2 (witness): the amended statement evaluated on the mixed frame. -/
theorem notReady_skips_only_texture_bind_witness :
    cmdNotReady ∈ stMixed.commands ∧ stMixed.loaded cmdNotReady.texture_id = false ∧
    (DrawEvent.bindTexture cmdNotReady.texture_id ∉ (draw_inline stMixed 0).1 ∧
     DrawEvent.setScissors cmdNotReady.scissor ∈ (draw_inline stMixed 0).1 ∧
     DrawEvent.drawIndexed cmdNotReady.index_range (u32ToI32 cmdNotReady.vertex_range.start)
       ⟨0, 1⟩ ∈ (draw_inline stMixed 0).1 ∧
     drawCalls (draw_inline stMixed 0).1 =
       stMixed.commands.map
         (fun d => (d.index_range, u32ToI32 d.vertex_range.start, Range32.mk 0 1))) :=
  ⟨by decide, by decide,
    notReady_skips_only_texture_bind stMixed 0 cmdNotReady (by decide) (by decide)⟩

/-- C3 (counterexample): a frame with two commands issues two pipeline
binds, not one. -/
theorem pipeline_bound_per_command_counterexample :
    stMixed.commands.length = 2 ∧
    countBindPipeline (draw_inline stMixed 0).1 = 2 := by
  refine ⟨?_, ?_⟩ <;> decide

/-- C3 (amended): the draw phase binds the graphics pipeline once per
command — `n` binds for a frame with `n` commands (so zero for an empty
frame), not once per frame. -/
theorem pipeline_bind_count_eq_commands (st : DrawImgui) (index : Nat) :
    countBindPipeline (draw_inline st index).1 = st.commands.length := by
  rw [drawInline_trace]
  exact countBindPipeline_flatMap st index st.commands

/-- C4 (counterexample): with no UI context the frame assembles zero
commands, yet `prepare` still returns `DrawRecord` instead of reporting
nothing to draw. -/
theorem prepare_drawRecord_on_empty_counterexample :
    (prepare stEmpty none).state.commands = [] ∧
    (prepare stEmpty none).result = PrepareResult.DrawRecord := by
  exact ⟨rfl, rfl⟩

/-- C4 (amended): `prepare` unconditionally returns
`PrepareResult::DrawRecord`, whether or not any commands were assembled
and whether or not a UI context exists. -/
theorem prepare_always_drawRecord (st : DrawImgui) (ui : Option UiFrame) :
    (prepare st ui).result = PrepareResult.DrawRecord := by
  cases ui <;> rfl

/-- C5: the assembled flat vertex (resp. index) buffer length equals the
sum of the input lists' vertex (resp. index) counts; raw-callback commands
consume none of the buffers, so nothing is subtracted. -/
theorem assembled_lengths_eq_sum (dd : List DrawList) :
    (assembleData [] dd).vertices.length = totalVtx dd ∧
    (assembleData [] dd).indices.length = totalIdx dd := by
  rw [assembleData_eq]
  exact ⟨flatVtx_length dd, flatIdx_length dd⟩

/-- C6: the assembled command sequence is, in order, exactly the sequence
of `Elements` commands across the input lists (reset-render-state and
raw-callback entries removed), and the draw phase replays the command list
in exactly that order (the trace's indexed draws are the commands in
order). -/
theorem commands_order_preserved :
    (∀ dd : List DrawList,
      (assembleData [] dd).commands.map (fun c => (c.scissor, c.texture_id)) =
        (elemsOf dd).map (fun p => (scissorOf p.clip_rect, toTextureId p.texture_id))) ∧
    (∀ (st : DrawImgui) (index : Nat),
      drawCalls (draw_inline st index).1 =
        st.commands.map
          (fun d => (d.index_range, u32ToI32 d.vertex_range.start, Range32.mk 0 1))) := by
  constructor
  · intro dd
    rw [assembleData_eq]
    simpa using cmdsFrom_proj dd 0 0
  · intro st index
    rw [drawInline_trace]
    exact drawCalls_flatMap st index st.commands

/-- C7: when a UI context exists, the transform constant computed by
`prepare` has `scale = (2/w, 2/h)` and `translation = (-1, -1)` for every
positive display size `(w, h)`. -/
theorem transform_constant_correct (st : DrawImgui) (u : UiFrame)
    (_hw : 0 < u.display_size.1) (_hh : 0 < u.display_size.2) :
    ((prepare st (some u)).state.constant).scale =
      ⟨2 / u.display_size.1, 2 / u.display_size.2⟩ ∧
    ((prepare st (some u)).state.constant).translation = ⟨-1, -1⟩ :=
  ⟨rfl, rfl⟩

/-- C7 (witness): the transform constant for an 800 × 600 display. -/
theorem transform_constant_correct_witness :
    (0 : ℚ) < 800 ∧ (0 : ℚ) < 600 ∧
    ((prepare stEmpty (some uiW)).state.constant).scale = ⟨2 / 800, 2 / 600⟩ ∧
    ((prepare stEmpty (some uiW)).state.constant).translation = ⟨-1, -1⟩ :=
  ⟨by norm_num, by norm_num,
    transform_constant_correct stEmpty uiW (by norm_num [uiW]) (by norm_num [uiW])⟩

/-- C8 (counterexample): the toolkit's handle is a `usize`; the conversion
`texture_id as u32` truncates, so the handle `2^32` maps to `TextureId`
`0` — the numeric value is not preserved for every possible handle. -/
theorem textureId_truncation_counterexample :
    toTextureId 4294967296 = 0 ∧ (4294967296 : Nat) ≠ 0 := by
  exact ⟨rfl, by decide⟩

/-- C8 (amended): the conversion to `TextureId` is bit-identical exactly
for handle values below `2^32`; larger handles are truncated modulo
`2^32`. -/
theorem textureId_lossless_below_2_32 (handle : Nat) (h : handle < 4294967296) :
    toTextureId handle = handle :=
  u32_eq_of_lt h

/-- C8 (witness): a handle below `2^32` is preserved exactly. -/
theorem textureId_lossless_below_2_32_witness :
    (42 : Nat) < 4294967296 ∧ toTextureId 42 = 42 :=
  ⟨by decide, textureId_lossless_below_2_32 42 (by decide)⟩

/-- C9: once the pipeline layout has been created, a pipeline-build
failure is propagated as-is and the layout created in the same attempt is
destroyed before the error is returned; on success both the pipeline and
the layout are returned and the layout is not destroyed. -/
theorem build_pipeline_error_destroys_layout (f : Factory) (layout : Nat)
    (hl : f.layoutResult = Except.ok layout) :
    (∀ e, f.pipesResult = Except.error e →
      (build_imgui_pipeline f).result = Except.error e ∧
      PipeEvent.destroyPipelineLayout layout ∈ (build_imgui_pipeline f).events) ∧
    (∀ pipe, f.pipesResult = Except.ok pipe →
      (build_imgui_pipeline f).result = Except.ok (pipe, layout) ∧
      PipeEvent.destroyPipelineLayout layout ∉ (build_imgui_pipeline f).events) := by
  constructor
  · intro e he
    simp [build_imgui_pipeline, hl, he]
  · intro pipe hp
    simp [build_imgui_pipeline, hl, hp]

/-- C9 (witness): the failing factory propagates its error and destroys
layout 1. -/
theorem build_pipeline_error_destroys_layout_witness :
    (build_imgui_pipeline factoryFail).result = Except.error "pipeline build failed" ∧
    PipeEvent.destroyPipelineLayout 1 ∈ (build_imgui_pipeline factoryFail).events :=
  (build_pipeline_error_destroys_layout factoryFail 1 rfl).1 "pipeline build failed" rfl

/-- C10: `set_scale` changes only the scale components and
`set_translation` only the translation components; each getter then
returns exactly the vector that was set. -/
theorem push_constant_set_get (c : ImguiPushConstant) (s t : Vector2) :
    (c.set_scale s).scale = s ∧
    (c.set_scale s).translation = c.translation ∧
    (c.set_translation t).translation = t ∧
    (c.set_translation t).scale = c.scale :=
  ⟨rfl, rfl, rfl, rfl⟩

end AmethystImgui
